import Mathlib

/-!
Verification of the ueb03 marble-surface simulation (src/ueb03/src): a shallow
embedding over exact rationals of the B-spline surface code (logic.c, utils.c)
and the penalty physics (physics.c).  C floats become rationals; the C sqrtf
calls are modelled by an arbitrary function parameter sq : rat -> rat that is
universally quantified in the theorems (so each theorem holds in particular
for the real square root); cglm calls are expanded to their standard formulas.
cglm matrices are column-major: a C initializer row is one storage column, and
the Lean matrix definitions read the stored data back in mathematical
row/column convention.
-/

namespace CG

/-- Model of cglm vec3 (three floats), over exact rationals. -/
structure Vec3 where
  x : ℚ
  y : ℚ
  z : ℚ
deriving DecidableEq, Repr

/-- Zero vector, as glm_vec3_zero produces. -/
def vzero : Vec3 := ⟨0, 0, 0⟩

/-- Componentwise addition, as glm_vec3_add. -/
def vadd (a b : Vec3) : Vec3 := ⟨a.x + b.x, a.y + b.y, a.z + b.z⟩

/-- Componentwise subtraction, as glm_vec3_sub. -/
def vsub (a b : Vec3) : Vec3 := ⟨a.x - b.x, a.y - b.y, a.z - b.z⟩

/-- Scaling, as glm_vec3_scale. -/
def vscale (k : ℚ) (v : Vec3) : Vec3 := ⟨k * v.x, k * v.y, k * v.z⟩

/-- Dot product, as glm_vec3_dot. -/
def vdot (a b : Vec3) : ℚ := a.x * b.x + a.y * b.y + a.z * b.z

/-- Cross product, as glm_vec3_cross. -/
def vcross (a b : Vec3) : Vec3 :=
  ⟨a.y * b.z - a.z * b.y, a.z * b.x - a.x * b.z, a.x * b.y - a.y * b.x⟩

/-- Reflection about a normal, as glm_vec3_reflect: v - 2 (v.n) n. -/
def vreflect (v n : Vec3) : Vec3 := vsub v (vscale (2 * vdot v n) n)

/-- Normalization as glm_vec3_normalize_to: the length is sqrtf of the dot
product (modelled by the sq parameter); a zero length yields the zero vector,
otherwise the vector is scaled by the reciprocal length. -/
def vnormalizeTo (sq : ℚ → ℚ) (v : Vec3) : Vec3 :=
  let norm := sq (vdot v v)
  if norm = 0 then vzero else vscale (1 / norm) v

/-- Model of the CLAMP macro of utils.h line 27:
((x < min) ? min : (x > max) ? max : x). -/
def cCLAMP {α : Type} [LinearOrder α] (x lo hi : α) : α :=
  if x < lo then lo else if x > hi then hi else x

/-- Model of glm_clamp on scalars (same conditional structure as CLAMP). -/
def qclamp (x lo hi : ℚ) : ℚ := cCLAMP x lo hi

/-- Model of glm_vec3_eqv_eps: componentwise equality within epsilon. -/
def vecEqvEps (eps : ℚ) (a b : Vec3) : Bool :=
  |a.x - b.x| ≤ eps ∧ |a.y - b.y| ≤ eps ∧ |a.z - b.z| ≤ eps

/-- Model of cglm vec4. -/
abbrev Vec4 := Fin 4 → ℚ

/-- Model of cglm mat4 in mathematical convention: first index row, second
index column (the C storage is column-major, so stored[c][r] is entry (r,c)). -/
abbrev Mat4 := Fin 4 → Fin 4 → ℚ

/-- Zero matrix, as GLM_MAT4_ZERO_INIT. -/
def m4zero : Mat4 := fun _ _ => 0

/-- Matrix product, as glm_mat4_mul(A, B, dest) computes dest = A * B. -/
def m4mul (A B : Mat4) : Mat4 := fun i j =>
  A i 0 * B 0 j + A i 1 * B 1 j + A i 2 * B 2 j + A i 3 * B 3 j

/-- Matrix transpose. -/
def m4transpose (A : Mat4) : Mat4 := fun i j => A j i

/-- Matrix-vector product, as glm_mat4_mulv. -/
def m4mulv (A : Mat4) (v : Vec4) : Vec4 := fun i =>
  A i 0 * v 0 + A i 1 * v 1 + A i 2 * v 2 + A i 3 * v 3

/-- Dot product of vec4, as glm_vec4_dot. -/
def v4dot (a b : Vec4) : ℚ := a 0 * b 0 + a 1 * b 1 + a 2 * b 2 + a 3 * b 3

/-- The static mat4 splineMatrix of utils.c lines 38-43, read from its
column-major initializer ({{-1,3,-3,1},{3,-6,0,4},{-3,3,3,1},{1,0,0,0}} lists
the four columns) into row/column convention. -/
def splineMatrix : Mat4 := fun i j =>
  ![![-1, 3, -3, 1], ![3, -6, 0, 4], ![-3, 3, 3, 1], ![1, 0, 0, 0]] j i

/-- The static mat4 splineMatrixTransposed of utils.c lines 27-32, read from
its column-major initializer into row/column convention. -/
def splineMatrixTransposed : Mat4 := fun i j =>
  ![![-1, 3, -3, 1], ![3, -6, 3, 0], ![-3, 0, 3, 0], ![1, 4, 1, 0]] j i

/-- Model of utils_calculatePolynomialPatch (utils.c lines 235-250):
tmp = G * splineMatrixTransposed, result = splineMatrix * tmp, and every
entry of the result is divided by the scale 36. -/
def utils_calculatePolynomialPatch (geometryTerm : Mat4) : Mat4 :=
  let tmp := m4mul geometryTerm splineMatrixTransposed
  let result := m4mul splineMatrix tmp
  fun i j => result i j / 36

/-- Result record of utils_evalPatchLocal (logic.h PatchEvalResult). -/
structure PatchEvalResult where
  value : ℚ
  dsd : ℚ
  dtd : ℚ
deriving DecidableEq, Repr

/-- Model of utils_evalPatchLocal (utils.c lines 252-274): cubic basis row
vectors in s and t, temp = C * tVec, tempDt = C * dtVec, value = sVec . temp,
dsd = dsVec . temp, dtd = sVec . tempDt. -/
def utils_evalPatchLocal (C : Mat4) (s t : ℚ) : PatchEvalResult :=
  let sVec : Vec4 := ![s * s * s, s * s, s, 1]
  let tVec : Vec4 := ![t * t * t, t * t, t, 1]
  let dsVec : Vec4 := ![3 * s * s, 2 * s, 1, 0]
  let dtVec : Vec4 := ![3 * t * t, 2 * t, 1, 0]
  let temp := m4mulv C tVec
  let tempDt := m4mulv C dtVec
  ⟨v4dot sVec temp, v4dot dsVec temp, v4dot sVec tempDt⟩

/-- Model of utils_getNormal (utils.c lines 328-334): cross product of the
two tangent vectors, normalized. -/
def utils_getNormal (sq : ℚ → ℚ) (dsd dtd stepX stepZ : ℚ) : Vec3 :=
  vnormalizeTo sq (vcross ⟨0, dsd, stepZ⟩ ⟨stepX, dtd, 0⟩)

/-- Read a control point with the out-of-range value 0, modelling the raw
array access cp->data[i] (all verified accesses stay in range). -/
def cpGetD (cp : List Vec3) (i : ℕ) : Vec3 := cp.getD i vzero

/-- The surface-related fields of InputData plus the logic.c patch store:
control grid, its dimension, the polynomial patches, and the rebuild flags. -/
structure SurfaceData where
  dimension : ℕ
  controlPoints : List Vec3
  patches : List Mat4
  dimensionChanged : Bool
  resolutionChanged : Bool
  minPoint : Vec3
  maxPoint : Vec3

/-- Patch index selection of logic_evalSplineGlobal (logic.c lines 530-538):
floor of the scaled coordinate, clamped by CLAMP to [0, patchCount-1]. -/
def patchIndexOf (patchCount : ℤ) (coord : ℚ) : ℤ :=
  cCLAMP ⌊coord * (patchCount : ℚ)⌋ 0 (patchCount - 1)

/-- Patch index selection of evalSurfaceAt (logic.c lines 324-334) and of
generateSurfaceVertices: floor, then the two successive if-clamps. -/
def patchIndexOfEvalAt (patchCount : ℤ) (coord : ℚ) : ℤ :=
  let p0 := ⌊coord * (patchCount : ℚ)⌋
  let p1 := if p0 ≥ patchCount then patchCount - 1 else p0
  if p1 < 0 then 0 else p1

/-- The local patch coordinate: fractional remainder of the scaled coordinate
(logic.c lines 533 and 538). -/
def patchLocalOf (patchCount : ℤ) (coord : ℚ) : ℚ :=
  coord * (patchCount : ℚ) - (patchIndexOf patchCount coord : ℚ)

/-- Flat index into the patch array as logic_evalSplineGlobal computes it
(logic.c line 541): patch_s * patchCount + patch_t. -/
def evalGlobalFlatIndex (patchCount : ℤ) (gS gT : ℚ) : ℤ :=
  patchIndexOf patchCount gS * patchCount + patchIndexOf patchCount gT

/-- Model of logic_evalSplineGlobal (logic.c lines 515-552).  When a rebuild
is pending (dimensionChanged or resolutionChanged) the C function returns
before writing its two output vectors; this is modelled by passing the
caller's buffers in and returning them unchanged in that case. -/
def logic_evalSplineGlobal (sq : ℚ → ℚ) (surf : SurfaceData) (gT gS : ℚ)
    (posBuf normalBuf : Vec3) : Vec3 × Vec3 :=
  if surf.dimensionChanged || surf.resolutionChanged then (posBuf, normalBuf)
  else
    let dimension := surf.dimension
    let patchCount : ℤ := (dimension : ℤ) - 3
    let maxX := (cpGetD surf.controlPoints (dimension - 1)).x
    let maxZ := (cpGetD surf.controlPoints ((dimension - 1) * dimension)).z
    let stepX := maxX / ((patchCount : ℚ) * 3)
    let stepZ := maxZ / ((patchCount : ℚ) * 3)
    let patch_s := patchIndexOf patchCount gS
    let local_s := patchLocalOf patchCount gS
    let patch_t := patchIndexOf patchCount gT
    let local_t := patchLocalOf patchCount gT
    let p := surf.patches.getD (patch_s * patchCount + patch_t).toNat m4zero
    let res := utils_evalPatchLocal p local_s local_t
    let pos : Vec3 :=
      ⟨((patch_t : ℚ) * 3 + local_t * 3) * stepX, res.value,
        ((patch_s : ℚ) * 3 + local_s * 3) * stepZ⟩
    (pos, utils_getNormal sq res.dsd res.dtd stepX stepZ)

/-- Model of logic_closestSplinePointTo (logic.c lines 554-570): divide the
world x/z position by the grid extents and clamp into [0,1]; the result pair
is (outS, outT). -/
def logic_closestSplinePointTo (surf : SurfaceData) (worldPos : Vec3) : ℚ × ℚ :=
  let dimension := surf.dimension
  let maxX := (cpGetD surf.controlPoints (dimension - 1)).x
  let maxZ := (cpGetD surf.controlPoints ((dimension - 1) * dimension)).z
  let gT := cCLAMP (worldPos.x / maxX) 0 1
  let gS := cCLAMP (worldPos.z / maxZ) 0 1
  (gS, gT)

/-- The geometry matrix extraction of updatePatchesFromControlPoints
(logic.c lines 112-119): in the C loop geometryTerm[v][u] (storage column v,
row u) is cp[(i+u)*dimension + (j+v)].y, so the mathematical entry (u, v)
is the height at grid row i+u, column j+v. -/
def geometryTermOf (cp : List Vec3) (dimension i j : ℕ) : Mat4 :=
  fun u v => (cpGetD cp ((i + u.val) * dimension + (j + v.val))).y

/-- Model of updatePatchesFromControlPoints (logic.c lines 106-125): the
double loop over i, j below dimension - 3 pushing one polynomial patch per
iteration, in row-major order. -/
def updatePatchesFromControlPoints (cp : List Vec3) (dimension : ℕ) : List Mat4 :=
  (List.range (dimension - 3)).flatMap (fun i =>
    (List.range (dimension - 3)).map (fun j =>
      utils_calculatePolynomialPatch (geometryTermOf cp dimension i j)))

/-- Spec-side definition, following the spec's words: the fixed cubic
B-spline basis matrix M (uniform cubic B-spline blending matrix scaled by 6),
written directly in row/column convention, independent of the stored C
matrices. -/
def bsplineBasis : Mat4 := fun i j =>
  ![![-1, 3, -3, 1], ![3, -6, 3, 0], ![-3, 0, 3, 0], ![1, 4, 1, 0]] i j

/-- Spec-side definition: coefficients C = (1/36) * M * G * M^T for the
basis matrix M and a height sub-grid G. -/
def specPatchCoeffs (G : Mat4) : Mat4 :=
  let tmp := m4mul G (m4transpose bsplineBasis)
  let result := m4mul bsplineBasis tmp
  fun i j => result i j / 36

/-- Contact information of a ball (physics.c ContactInfo): the contact point
on the surface, the surface normal there, and the surface parameters. -/
structure ContactInfo where
  point : Vec3
  normal : Vec3
  s : ℚ
  t : ℚ
deriving DecidableEq, Repr

/-- A ball (physics.c Ball). -/
structure Ball where
  center : Vec3
  acceleration : Vec3
  velocity : Vec3
  contact : ContactInfo
  active : Bool
deriving DecidableEq, Repr

/-- A boundary wall plane (physics.c Wall). -/
structure Wall where
  normal : Vec3
  distance : ℚ
deriving DecidableEq, Repr

/-- A box obstacle (input.h Obstacle); length/height/width are half extents. -/
structure Obstacle where
  center : Vec3
  width : ℚ
  height : ℚ
  length : ℚ
deriving DecidableEq, Repr

/-- The goal state (physics.c g_goal). -/
structure Goal where
  position : Vec3
  radius : ℚ
  reached : Bool
deriving DecidableEq, Repr

/-- The physics members of InputData read by updateBalls and its helpers. -/
structure PhysicsParams where
  fixedDt : ℚ
  gravity : ℚ
  frictionFactor : ℚ
  ballRadius : ℚ
  mass : ℚ
  wallEnabled : Bool
  wallSpring : ℚ
  wallDamping : ℚ
  ballEnabled : Bool
  ballSpring : ℚ
  ballDamping : ℚ
  obsEnabled : Bool
  obsSpring : ℚ
  obsDamping : ℚ
  blackHoleCaptureRadius : ℚ
  blackHoleStrength : ℚ
  blackHoleRadius : ℚ
deriving DecidableEq, Repr

/-- The mutable physics state of physics.c: g_balls, g_blackHoles (positions),
g_walls and g_goal, plus the obstacles of InputData. -/
structure PhysState where
  balls : List Ball
  blackHoles : List Vec3
  walls : List Wall
  obstacles : List Obstacle
  goal : Goal
deriving DecidableEq, Repr

/-- Model of applyContactPoint (physics.c lines 166-172):
center = contact.point + contact.normal * radius. -/
def applyContactPoint (b : Ball) (radius : ℚ) : Ball :=
  { b with center := vadd b.contact.point (vscale radius b.contact.normal) }

/-- Model of applyWallPenalty (physics.c lines 174-195). -/
def applyWallPenalty (b : Ball) (w : Wall)
    (ballMass penetration springConst wallDamping : ℚ) : Ball :=
  let counterforce := springConst * penetration
  let penaltyForce := vscale counterforce w.normal
  let additionalAcceleration := vscale (1 / ballMass) penaltyForce
  let b1 := { b with acceleration := vadd additionalAcceleration b.acceleration }
  let velDotNormal := vdot b1.velocity w.normal
  if velDotNormal < 0 then
    { b1 with velocity := vscale wallDamping (vreflect b1.velocity w.normal) }
  else b1

/-- Model of handleWallCollision (physics.c lines 197-220): skip when wall
collisions are disabled, otherwise fold the penalty over the wall list. -/
def handleWallCollision (P : PhysicsParams) (walls : List Wall) (b : Ball) : Ball :=
  if !P.wallEnabled then b else
  walls.foldl (fun b w =>
    let signedDist := vdot w.normal b.center + w.distance
    let penetrationDepth := P.ballRadius - signedDist
    if 0 < penetrationDepth then
      applyWallPenalty b w P.mass penetrationDepth P.wallSpring P.wallDamping
    else b) b

/-- Model of applyBallPenalty (physics.c lines 222-252): equal and opposite
penalty accelerations along the normalized line of centers, then a damped
impulse exchange when the balls are closing. -/
def applyBallPenalty (sq : ℚ → ℚ) (b1 b2 : Ball) (penetration : ℚ)
    (b1ToB2 : Vec3) (springConst mass ballDamping : ℚ) : Ball × Ball :=
  let normal := vnormalizeTo sq b1ToB2
  let counterForce := springConst * penetration
  let penaltyAccel := vscale (1 / mass) (vscale counterForce normal)
  let b1' := { b1 with acceleration := vsub b1.acceleration penaltyAccel }
  let b2' := { b2 with acceleration := vadd b2.acceleration penaltyAccel }
  let relativeVelocity := vsub b1'.velocity b2'.velocity
  let velocityAlongNormal := vdot relativeVelocity normal
  if 0 < velocityAlongNormal then
    let impulse := vscale ((1 + ballDamping) * velocityAlongNormal * (1/2)) normal
    ({ b1' with velocity := vsub b1'.velocity impulse },
     { b2' with velocity := vadd b2'.velocity impulse })
  else (b1', b2')

/-- One iteration of the inner loop of handleBallCollisions (physics.c lines
266-284) on the pair (i1, i2) of the ball list: skip inactive partners,
compute the line of centers and its length, and apply the pairwise penalty
only when the penetration is positive and the distance exceeds 0.0001. -/
def ballPairStep (sq : ℚ → ℚ) (P : PhysicsParams) (bs : List Ball)
    (i1 i2 : ℕ) : List Ball :=
  match bs[i1]?, bs[i2]? with
  | some b1, some b2 =>
    if !b2.active then bs else
    let b1ToB2 := vsub b2.center b1.center
    let dist := sq (vdot b1ToB2 b1ToB2)
    let penetrationDepth := 2 * P.ballRadius - dist
    if 0 < penetrationDepth ∧ 1/10000 < dist then
      let r := applyBallPenalty sq b1 b2 penetrationDepth b1ToB2
                 P.ballSpring P.mass P.ballDamping
      (bs.set i1 r.1).set i2 r.2
    else bs
  | _, _ => bs

/-- Model of handleBallCollisions (physics.c lines 254-285): for ball i1,
iterate the partners i2 from i1+1 to the end of the list. -/
def handleBallCollisions (sq : ℚ → ℚ) (P : PhysicsParams) (bs : List Ball)
    (i1 : ℕ) : List Ball :=
  if !P.ballEnabled then bs else
  (List.range' (i1 + 1) (bs.length - (i1 + 1))).foldl
    (fun s i2 => ballPairStep sq P s i1 i2) bs

/-- Model of utils_closestPointOnAABB (utils.c lines 336-350). -/
def utils_closestPointOnAABB (point : Vec3) (o : Obstacle) : Vec3 :=
  let rel := vsub point o.center
  vadd o.center
    ⟨qclamp rel.x (-o.length) o.length,
     qclamp rel.y (-o.height) o.height,
     qclamp rel.z (-o.width) o.width⟩

/-- Model of utils_getAABBNormal (utils.c lines 352-382): for a near-zero
distance pick the axis of smallest overlap as a fallback direction, otherwise
divide the difference vector by the distance. -/
def utils_getAABBNormal (o : Obstacle) (pos : Vec3) (dist : ℚ) (diff : Vec3) : Vec3 :=
  if dist < 1/1000000 then
    let dx := o.length - |pos.x - o.center.x|
    let dy := o.height - |pos.y - o.center.y|
    let dz := o.width - |pos.z - o.center.z|
    if dx ≤ dy ∧ dx ≤ dz then ⟨if o.center.x < pos.x then 1 else -1, 0, 0⟩
    else if dy ≤ dz then ⟨0, if o.center.y < pos.y then 1 else -1, 0⟩
    else ⟨0, 0, if o.center.z < pos.z then 1 else -1⟩
  else vscale (1 / dist) diff

/-- Model of applyObstaclePenalty (physics.c lines 287-310). -/
def applyObstaclePenalty (b : Ball) (o : Obstacle) (dist : ℚ) (diff : Vec3)
    (springConst penetration ballMass obstacleDamping : ℚ) : Ball :=
  let normal := utils_getAABBNormal o b.center dist diff
  let counterforce := springConst * penetration
  let additionalAcceleration := vscale (1 / ballMass) (vscale counterforce normal)
  let b1 := { b with acceleration := vadd additionalAcceleration b.acceleration }
  if vdot b1.velocity normal < 0 then
    { b1 with velocity := vscale obstacleDamping (vreflect b1.velocity normal) }
  else b1

/-- Model of handleObstacleCollisions (physics.c lines 312-342). -/
def handleObstacleCollisions (sq : ℚ → ℚ) (P : PhysicsParams)
    (obstacles : List Obstacle) (b : Ball) : Ball :=
  if !P.obsEnabled then b else
  obstacles.foldl (fun b o =>
    let closest := utils_closestPointOnAABB b.center o
    let diff := vsub b.center closest
    let dist := sq (vdot diff diff)
    let penetrationDepth := P.ballRadius - dist
    if 0 < penetrationDepth then
      applyObstaclePenalty b o dist diff P.obsSpring penetrationDepth
        P.mass P.obsDamping
    else b) b

/-- Model of handleBlackHoleAttraction (physics.c lines 344-377): capture
(deactivate and stop) when inside the capture radius, otherwise add the
inverse-square attraction when inside the hole radius and farther than
0.0001, and continue with the next black hole. -/
def handleBlackHoleAttraction (sq : ℚ → ℚ) (P : PhysicsParams)
    (bhs : List Vec3) (b : Ball) : Ball :=
  match bhs with
  | [] => b
  | bh :: rest =>
    let toBlackHole := vsub bh b.center
    let dist := sq (vdot toBlackHole toBlackHole)
    if dist < P.blackHoleCaptureRadius then { b with active := false }
    else
      let b' :=
        if dist < P.blackHoleRadius ∧ 1/10000 < dist then
          let direction := vnormalizeTo sq toBlackHole
          let forceMagnitude := P.blackHoleStrength / (dist * dist)
          let attraction := vscale (forceMagnitude / P.mass) direction
          { b with acceleration := vadd b.acceleration attraction }
        else b
      handleBlackHoleAttraction sq P rest b'

/-- Model of checkGoalReached (physics.c lines 379-393): once reached, return
immediately; otherwise set the latch when the ball's center is within the
goal radius. -/
def checkGoalReached (sq : ℚ → ℚ) (g : Goal) (b : Ball) : Goal :=
  if g.reached then g else
  let toGoal := vsub g.position b.center
  let dist := sq (vdot toGoal toGoal)
  if dist < g.radius then { g with reached := true } else g

/-- Model of applyExternForces (physics.c lines 395-404): overwrite the
acceleration with gravity projected onto the tangent plane of the contact
normal, divided by the mass. -/
def applyExternForces (b : Ball) (gravity : Vec3) (mass : ℚ) : Ball :=
  let gDotN := vdot gravity b.contact.normal
  let l := vscale gDotN b.contact.normal
  let f := vsub gravity l
  { b with acceleration := vscale (1 / mass) f }

/-- Model of applyIntegration (physics.c lines 406-422): Euler step of the
velocity, friction, Euler step of the contact point, re-projection of the
surface parameters, surface re-evaluation (which leaves point and normal
unchanged when a rebuild is pending), and finally applyContactPoint. -/
def applyIntegration (sq : ℚ → ℚ) (surf : SurfaceData) (b : Ball)
    (dt friction ballRadius : ℚ) : Ball :=
  let vel1 := vadd b.velocity (vscale dt b.acceleration)
  let vel2 := vscale friction vel1
  let point1 := vadd b.contact.point (vscale dt vel2)
  let st := logic_closestSplinePointTo surf point1
  let pn := logic_evalSplineGlobal sq surf st.2 st.1 point1 b.contact.normal
  applyContactPoint
    { b with velocity := vel2,
             contact := { point := pn.1, normal := pn.2, s := st.1, t := st.2 } }
    ballRadius

/-- One iteration of the force-accumulation loop of updateBalls (physics.c
lines 438-446) on ball index i: wall, ball-ball, obstacle, black hole, in
the order of the C body, skipping inactive balls. -/
def collideStep (sq : ℚ → ℚ) (P : PhysicsParams) (walls : List Wall)
    (obstacles : List Obstacle) (bhs : List Vec3) (bs : List Ball)
    (i : ℕ) : List Ball :=
  match bs[i]? with
  | none => bs
  | some b =>
    if !b.active then bs else
    let bs1 := bs.set i (handleWallCollision P walls b)
    let bs2 := handleBallCollisions sq P bs1 i
    match bs2[i]? with
    | none => bs2
    | some b2 =>
      bs2.set i (handleBlackHoleAttraction sq P bhs
        (handleObstacleCollisions sq P obstacles b2))

/-- The two force phases of updateBalls (physics.c lines 431-446): the
gravity loop (per-ball, independent) followed by the collision loop. -/
def accumulatedBalls (sq : ℚ → ℚ) (P : PhysicsParams) (st : PhysState) : List Ball :=
  let gravity : Vec3 := ⟨0, -P.gravity, 0⟩
  let bs1 := st.balls.map (fun b =>
    if b.active then applyExternForces b gravity P.mass else b)
  (List.range bs1.length).foldl
    (fun s i => collideStep sq P st.walls st.obstacles st.blackHoles s i) bs1

/-- One iteration of the integration loop of updateBalls (physics.c lines
449-453) on ball index i: skip inactive balls, integrate, check the goal. -/
def integrateStep (sq : ℚ → ℚ) (surf : SurfaceData) (P : PhysicsParams)
    (s : List Ball × Goal) (i : ℕ) : List Ball × Goal :=
  match s.1[i]? with
  | none => s
  | some b =>
    if !b.active then s else
    let b' := applyIntegration sq surf b P.fixedDt P.frictionFactor P.ballRadius
    (s.1.set i b', checkGoalReached sq s.2 b')

/-- The integration loop of updateBalls over an explicit index order (the C
code uses ascending order; theorems quantify over the order). -/
def integratePhase (sq : ℚ → ℚ) (surf : SurfaceData) (P : PhysicsParams)
    (bs : List Ball) (g : Goal) (order : List ℕ) : List Ball × Goal :=
  order.foldl (integrateStep sq surf P) (bs, g)

/-- Model of updateBalls (physics.c lines 424-454): accumulate accelerations
for every ball, then integrate every ball in ascending index order. -/
def updateBalls (sq : ℚ → ℚ) (surf : SurfaceData) (P : PhysicsParams)
    (st : PhysState) : PhysState :=
  let bs2 := accumulatedBalls sq P st
  let r := integratePhase sq surf P bs2 st.goal (List.range bs2.length)
  { st with balls := r.1, goal := r.2 }

/-- The goal seed position selected by initGoal (physics.c lines 148-156):
the last control point when the cached extremes coincide within epsilon,
otherwise the cached minimum point. -/
def initGoalSeed (surf : SurfaceData) (eps : ℚ) : Vec3 :=
  if vecEqvEps eps surf.minPoint surf.maxPoint then
    cpGetD surf.controlPoints (surf.controlPoints.length - 1)
  else surf.minPoint

/-- Model of initGoal (physics.c lines 145-164): select the seed, project it
onto the spline, re-evaluate the surface there into the goal position buffer
(left unchanged when a rebuild is pending), and clear the reached latch. -/
def initGoal (sq : ℚ → ℚ) (surf : SurfaceData) (g : Goal) (eps : ℚ) : Goal :=
  let goalPos := initGoalSeed surf eps
  let st := logic_closestSplinePointTo surf goalPos
  let pn := logic_evalSplineGlobal sq surf st.2 st.1 g.position vzero
  { g with position := pn.1, reached := false }

/-- Integer square root by bounded linear search: the greatest k with
k * k <= n (kernel-reducible, unlike Nat.sqrt).  Models the C expression
(int)sqrtf((float)n) at the perfect squares where the verified code uses
it. -/
def isqrt (n : ℕ) : ℕ :=
  (List.range (n + 1)).foldl (fun acc k => if k * k ≤ n then k else acc) 0

/-- A concrete square-root instance for the closed witness and counterexample
runs below: it gives the exact square root at every argument at which those
runs evaluate it (sqW (25/16) = 5/4 and sqW (1/16) = 1/4, matching the C
sqrtf there up to float rounding). -/
def sqW : ℚ → ℚ := fun x => if x = 25/16 then 5/4 else if x = 1/16 then 1/4 else 0

/-- The per-ball effect of one pass of the integration loop: integrate when
active, otherwise leave the ball untouched. -/
def integratedBall (sq : ℚ → ℚ) (surf : SurfaceData) (P : PhysicsParams)
    (b : Ball) : Ball :=
  if b.active then applyIntegration sq surf b P.fixedDt P.frictionFactor P.ballRadius
  else b

/-- The surface state used by the closed witness and counterexample runs: a
rebuild is pending, so logic_evalSplineGlobal leaves its buffers unchanged. -/
def surfW : SurfaceData :=
  { dimension := 4, controlPoints := [], patches := [],
    dimensionChanged := true, resolutionChanged := false,
    minPoint := vzero, maxPoint := vzero }

/-- A single resting ball whose contact point lies near the origin. -/
def ballW : Ball :=
  { center := vzero, acceleration := vzero, velocity := vzero,
    contact := { point := ⟨0, 1/4, 0⟩, normal := ⟨0, 1, 0⟩, s := 0, t := 0 },
    active := true }

/-- Plain physics parameters, with all optional collisions disabled. -/
def paramsW : PhysicsParams :=
  { fixedDt := 1, gravity := 1, frictionFactor := 1, ballRadius := 1, mass := 1,
    wallEnabled := false, wallSpring := 0, wallDamping := 0,
    ballEnabled := false, ballSpring := 0, ballDamping := 0,
    obsEnabled := false, obsSpring := 0, obsDamping := 0,
    blackHoleCaptureRadius := 0, blackHoleStrength := 0, blackHoleRadius := 0 }

/-- A one-ball state whose goal sits at the origin with radius 3/10. -/
def stateW : PhysState :=
  { balls := [ballW], blackHoles := [], walls := [], obstacles := [],
    goal := { position := vzero, radius := 3/10, reached := false } }

/-- A zero square-root stand-in for runs that never take a square root of a
nonzero number: it agrees with sqrtf at 0, the only argument at which the
counterexample below evaluates it. -/
def sqZ : ℚ → ℚ := fun _ => 0

/-- Wall plane x = 0 with inward normal, as walls[0] of initWalls. -/
def wallW : Wall := { normal := ⟨1, 0, 0⟩, distance := 0 }

/-- Parameters with wall collisions enabled, unit spring and mass, and ball
radius 2. -/
def paramsW5 : PhysicsParams :=
  { paramsW with wallEnabled := true, wallSpring := 1, ballRadius := 2 }

/-- A ball touching the x = 0 wall plane exactly: signed distance 2 equals
the ball radius, so its penetration is zero. -/
def ballTouch : Ball := { ballW with center := ⟨2, 0, 0⟩ }

/-- A ball one unit into the x = 0 wall: signed distance 1, penetration 1. -/
def ballPen1 : Ball := { ballW with center := ⟨1, 0, 0⟩ }

/-- The witness surface state with no rebuild pending. -/
def surfN : SurfaceData := { surfW with dimensionChanged := false }

/-- Model of C roundf: round half away from zero. -/
def croundf (x : ℚ) : ℤ := if 0 ≤ x then ⌊x + 1/2⌋ else -⌊-x + 1/2⌋

/-- One height computation of the updateControlPoints loop body (logic.c
lines 55-89) at grid position (i, j): reuse the old height when (i, j) lies
inside the old grid, otherwise average the in-bounds members of the 3x3 old
neighborhood around the proportionally mapped index and add jitter
RANDOM_HEIGHT(0.2), or, with no old grid, take RANDOM_HEIGHT(0.5).  rand k
models the k-th value of (float)rand() / RAND_MAX; used counts the rand
calls consumed so far and is returned updated. -/
def newHeight (rand : ℕ → ℚ) (cp : List Vec3) (oldDim newDim : ℕ) (i j : ℕ)
    (used : ℕ) : ℚ × ℕ :=
  if i < oldDim ∧ j < oldDim ∧ 0 < oldDim then
    ((cpGetD cp (i * oldDim + j)).y, used)
  else if 0 < oldDim then
    let ni := croundf ((i : ℚ) * ((oldDim : ℚ) - 1) / ((newDim : ℚ) - 1))
    let nj := croundf ((j : ℚ) * ((oldDim : ℚ) - 1) / ((newDim : ℚ) - 1))
    let offs : List ℤ := [-1, 0, 1]
    let sc := offs.foldl (fun (s : ℚ × ℕ) di =>
      offs.foldl (fun (s : ℚ × ℕ) dj =>
        let oi := ni + di
        let oj := nj + dj
        if 0 ≤ oi ∧ oi < (oldDim : ℤ) ∧ 0 ≤ oj ∧ oj < (oldDim : ℤ) then
          (s.1 + (cpGetD cp (oi.toNat * oldDim + oj.toNat)).y, s.2 + 1)
        else s) s) ((0 : ℚ), (0 : ℕ))
    let h := if 0 < sc.2 then sc.1 / (sc.2 : ℚ) else 0
    (h + (rand used - 1/2) * (2/10), used + 1)
  else
    ((rand used - 1/2) * (5/10), used + 1)

/-- The row-major (i, j) index pairs of the nested control-point loops. -/
def cpIndexPairs (n : ℕ) : List (ℕ × ℕ) :=
  (List.range n).flatMap (fun i => (List.range n).map (fun j => (i, j)))

/-- The loop of updateControlPoints (logic.c lines 49-92): one point
pushed per (i, j) in row-major order, with x = j * newStep, z = i * newStep
and the height from newHeight, threading the rand counter sequentially. -/
def buildPoints (rand : ℕ → ℚ) (cp : List Vec3) (oldDim newDim : ℕ)
    (newStep : ℚ) : List (ℕ × ℕ) → ℕ → List Vec3 × ℕ
  | [], used => ([], used)
  | (i, j) :: rest, used =>
    let hu := newHeight rand cp oldDim newDim i j used
    let r := buildPoints rand cp oldDim newDim newStep rest hu.2
    (⟨(j : ℚ) * newStep, hu.1, (i : ℚ) * newStep⟩ :: r.1, r.2)

/-- Model of updateControlPoints (logic.c lines 38-96): oldDim is
(int)sqrtf((float)size), zeroed unless it squares back to size; the uniform
step is 1/(newDim - 1) + cpOffset; the result replaces the old array, and
the second component counts the rand() calls consumed. -/
def updateControlPoints (rand : ℕ → ℚ) (cp : List Vec3) (newDim : ℕ)
    (cpOffset : ℚ) : List Vec3 × ℕ :=
  let oldDim0 := isqrt cp.length
  let oldDim := if oldDim0 * oldDim0 ≠ cp.length then 0 else oldDim0
  let newStep := 1 / ((newDim : ℚ) - 1) + cpOffset
  buildPoints rand cp oldDim newDim newStep (cpIndexPairs newDim) 0

theorem patchIndexOf_nonneg (pc : ℤ) (hpc : 1 ≤ pc) (c : ℚ) :
    0 ≤ patchIndexOf pc c := by
  unfold patchIndexOf cCLAMP
  split_ifs <;> omega

theorem patchIndexOf_le (pc : ℤ) (hpc : 1 ≤ pc) (c : ℚ) :
    patchIndexOf pc c ≤ pc - 1 := by
  unfold patchIndexOf cCLAMP
  split_ifs <;> omega

theorem patchIndexOfEvalAt_eq (pc : ℤ) (hpc : 1 ≤ pc) (c : ℚ) :
    patchIndexOfEvalAt pc c = patchIndexOf pc c := by
  simp only [patchIndexOfEvalAt, patchIndexOf, cCLAMP]
  split_ifs <;> omega

/-- C2: with patchCount >= 1, the patch index computed by global surface
evaluation is the clamped floor, the flat access patch_s * patchCount +
patch_t always lies in [0, patchCount^2 - 1] for every rational input, the
if-based clamping of evalSurfaceAt agrees with the CLAMP form of
logic_evalSplineGlobal, and the local coordinate is the fractional
remainder coord * patchCount - patchIndex. -/
theorem evalGlobal_patch_index_safe (pc : ℤ) (hpc : 1 ≤ pc) (gS gT : ℚ) :
    0 ≤ evalGlobalFlatIndex pc gS gT ∧
    evalGlobalFlatIndex pc gS gT ≤ pc ^ 2 - 1 ∧
    patchIndexOfEvalAt pc gS = patchIndexOf pc gS ∧
    patchLocalOf pc gS = gS * (pc : ℚ) - ((patchIndexOf pc gS : ℤ) : ℚ) := by
  have hs0 := patchIndexOf_nonneg pc hpc gS
  have ht0 := patchIndexOf_nonneg pc hpc gT
  have hs1 := patchIndexOf_le pc hpc gS
  have ht1 := patchIndexOf_le pc hpc gT
  refine ⟨?_, ?_, patchIndexOfEvalAt_eq pc hpc gS, rfl⟩
  · unfold evalGlobalFlatIndex
    have : 0 ≤ patchIndexOf pc gS * pc := mul_nonneg hs0 (by omega)
    omega
  · unfold evalGlobalFlatIndex
    have : patchIndexOf pc gS * pc ≤ (pc - 1) * pc :=
      mul_le_mul_of_nonneg_right hs1 (by omega)
    nlinarith

/-- Witness: the index-safety statement evaluated at patchCount 2 and the
concrete coordinates (5/7, 9/4). -/
theorem evalGlobal_patch_index_safe_witness :
    0 ≤ evalGlobalFlatIndex 2 (5/7) (9/4) ∧
    evalGlobalFlatIndex 2 (5/7) (9/4) ≤ 2 ^ 2 - 1 ∧
    patchIndexOfEvalAt 2 (5/7) = patchIndexOf 2 (5/7) ∧
    patchLocalOf 2 (5/7) = (5/7) * ((2 : ℤ) : ℚ) - ((patchIndexOf 2 (5/7) : ℤ) : ℚ) :=
  evalGlobal_patch_index_safe 2 (by decide) (5/7) (9/4)

theorem calculatePolynomialPatch_eq_spec (G : Mat4) :
    utils_calculatePolynomialPatch G = specPatchCoeffs G := by
  have h1 : splineMatrix = bsplineBasis := by decide
  have h2 : splineMatrixTransposed = m4transpose bsplineBasis := by decide
  unfold utils_calculatePolynomialPatch specPatchCoeffs
  rw [h1, h2]

theorem flatten_getElem?_uniform {α : Type} (L : List (List α)) (m : ℕ)
    (hL : ∀ l ∈ L, l.length = m) :
    ∀ i j : ℕ, j < m →
      L.flatten[i * m + j]? = L[i]?.bind (fun l => l[j]?) := by
  induction L with
  | nil => intro i j _; simp
  | cons x xs ih =>
    intro i j hj
    have hx : x.length = m := hL x (by simp)
    cases i with
    | zero =>
      rw [List.flatten_cons]
      rw [List.getElem?_append_left (by omega : 0 * m + j < x.length)]
      simp [hj, hx]
    | succ i =>
      rw [List.flatten_cons]
      rw [List.getElem?_append_right (by rw [hx]; calc
        m ≤ (i + 1) * m := Nat.le_mul_of_pos_left m (Nat.succ_pos i)
        _ ≤ (i + 1) * m + j := Nat.le_add_right _ _)]
      have harith : (i + 1) * m + j - x.length = i * m + j := by
        rw [hx]; rw [Nat.succ_mul]; omega
      rw [harith, ih (fun l hl => hL l (by simp [hl])) i j hj,
        List.getElem?_cons_succ]

theorem updatePatches_length (cp : List Vec3) (N : ℕ) :
    (updatePatchesFromControlPoints cp N).length = (N - 3) * (N - 3) := by
  unfold updatePatchesFromControlPoints
  rw [List.length_flatMap]
  simp [Function.comp_def]

/-- C3: rebuilding the patch array from an N-by-N control grid yields exactly
(N-3)^2 patches for N >= 4 and zero patches for N < 4, and the patch stored
at flat index i*(N-3)+j has coefficient matrix (1/36) * M * G * M^T, where M
is the fixed cubic B-spline basis matrix and G the 4x4 height sub-grid
grid[i..i+3][j..j+3]. -/
theorem patch_build_count_and_coefficients (cp : List Vec3) (N : ℕ) :
    ((4 ≤ N → (updatePatchesFromControlPoints cp N).length = (N - 3) ^ 2) ∧
     (N < 4 → (updatePatchesFromControlPoints cp N).length = 0)) ∧
    (∀ i j : ℕ, i < N - 3 → j < N - 3 →
      (updatePatchesFromControlPoints cp N)[i * (N - 3) + j]? =
        some (specPatchCoeffs (geometryTermOf cp N i j))) := by
  refine ⟨⟨fun _ => by rw [updatePatches_length]; ring,
           fun h4 => by
             rw [updatePatches_length]
             have h0 : N - 3 = 0 := by omega
             rw [h0]⟩, ?_⟩
  intro i j hi hj
  unfold updatePatchesFromControlPoints
  rw [show (List.range (N - 3)).flatMap (fun i =>
        (List.range (N - 3)).map (fun j =>
          utils_calculatePolynomialPatch (geometryTermOf cp N i j))) =
      ((List.range (N - 3)).map (fun i =>
        (List.range (N - 3)).map (fun j =>
          utils_calculatePolynomialPatch (geometryTermOf cp N i j)))).flatten
    from rfl]
  rw [flatten_getElem?_uniform _ (N - 3) (by
    intro l hl
    rw [List.mem_map] at hl
    obtain ⟨a, _, rfl⟩ := hl
    simp) i j hj]
  simp [List.getElem?_range hi, List.getElem?_range hj,
    calculatePolynomialPatch_eq_spec]

theorem applyIntegration_center (sq : ℚ → ℚ) (surf : SurfaceData) (b : Ball)
    (dt friction ballRadius : ℚ) :
    (applyIntegration sq surf b dt friction ballRadius).center =
      vadd (applyIntegration sq surf b dt friction ballRadius).contact.point
        (vscale ballRadius
          (applyIntegration sq surf b dt friction ballRadius).contact.normal) := rfl

theorem applyIntegration_acceleration (sq : ℚ → ℚ) (surf : SurfaceData) (b : Ball)
    (dt friction ballRadius : ℚ) :
    (applyIntegration sq surf b dt friction ballRadius).acceleration =
      b.acceleration := rfl

theorem applyIntegration_active (sq : ℚ → ℚ) (surf : SurfaceData) (b : Ball)
    (dt friction ballRadius : ℚ) :
    (applyIntegration sq surf b dt friction ballRadius).active = b.active := rfl

theorem integratedBall_active (sq : ℚ → ℚ) (surf : SurfaceData) (P : PhysicsParams)
    (b : Ball) : (integratedBall sq surf P b).active = b.active := by
  unfold integratedBall
  split_ifs <;> rfl

theorem checkGoalReached_position (sq : ℚ → ℚ) (g : Goal) (b : Ball) :
    (checkGoalReached sq g b).position = g.position := by
  unfold checkGoalReached
  dsimp only
  split_ifs <;> rfl

theorem checkGoalReached_radius (sq : ℚ → ℚ) (g : Goal) (b : Ball) :
    (checkGoalReached sq g b).radius = g.radius := by
  unfold checkGoalReached
  dsimp only
  split_ifs <;> rfl

theorem checkGoalReached_reached_iff (sq : ℚ → ℚ) (g : Goal) (b : Ball) :
    ((checkGoalReached sq g b).reached = true ↔
      g.reached = true ∨
        sq (vdot (vsub g.position b.center) (vsub g.position b.center)) < g.radius) := by
  unfold checkGoalReached
  dsimp only
  split_ifs with h1 h2
  · simp [h1]
  · simp [h1, h2]
  · simp [h1, h2]

theorem integratePhase_range_spec (sq : ℚ → ℚ) (surf : SurfaceData)
    (P : PhysicsParams) :
    ∀ (n : ℕ) (bs : List Ball) (g : Goal),
      (∀ i : ℕ, i < n →
        (integratePhase sq surf P bs g (List.range n)).1[i]? =
          (bs[i]?).map (integratedBall sq surf P)) ∧
      (∀ i : ℕ, n ≤ i →
        (integratePhase sq surf P bs g (List.range n)).1[i]? = bs[i]?) ∧
      (integratePhase sq surf P bs g (List.range n)).2.position = g.position ∧
      (integratePhase sq surf P bs g (List.range n)).2.radius = g.radius ∧
      ((integratePhase sq surf P bs g (List.range n)).2.reached = true ↔
        g.reached = true ∨ ∃ i : ℕ, i < n ∧ ∃ b : Ball, bs[i]? = some b ∧
          b.active = true ∧
          sq (vdot (vsub g.position (integratedBall sq surf P b).center)
                   (vsub g.position (integratedBall sq surf P b).center))
            < g.radius) := by
  intro n
  induction n with
  | zero =>
    intro bs g
    refine ⟨fun i hi => absurd hi (by omega), fun i _ => rfl, rfl, rfl, ?_⟩
    simp [integratePhase]
  | succ n ih =>
    intro bs g
    obtain ⟨ih1, ih2, ihpos, ihrad, ihiff⟩ := ih bs g
    have hstep : integratePhase sq surf P bs g (List.range (n + 1)) =
        integrateStep sq surf P
          (integratePhase sq surf P bs g (List.range n)) n := by
      unfold integratePhase
      rw [List.range_succ, List.foldl_append]
      rfl
    set prev := integratePhase sq surf P bs g (List.range n) with hprev
    have hn : prev.1[n]? = bs[n]? := ih2 n (le_refl n)
    cases hcase : bs[n]? with
    | none =>
      have hpn : prev.1[n]? = none := by rw [hn, hcase]
      have hstep2 : integrateStep sq surf P prev n = prev := by
        unfold integrateStep
        rw [hpn]
      rw [hstep, hstep2]
      refine ⟨?_, ?_, ihpos, ihrad, ?_⟩
      · intro i hi
        rcases Nat.lt_succ_iff_lt_or_eq.mp hi with h | rfl
        · exact ih1 i h
        · rw [hpn, hcase]
          rfl
      · intro i hi
        exact ih2 i (by omega)
      · rw [ihiff]
        constructor
        · rintro (h | ⟨i, hi, hrest⟩)
          · exact Or.inl h
          · exact Or.inr ⟨i, by omega, hrest⟩
        · rintro (h | ⟨i, hi, b0, hb0, hrest⟩)
          · exact Or.inl h
          · rcases Nat.lt_succ_iff_lt_or_eq.mp hi with h2 | rfl
            · exact Or.inr ⟨i, h2, b0, hb0, hrest⟩
            · rw [hcase] at hb0
              cases hb0
    | some b =>
      have hpn : prev.1[n]? = some b := by rw [hn, hcase]
      cases hact : b.active with
      | false =>
        have hFb : integratedBall sq surf P b = b := by
          unfold integratedBall
          rw [hact]
          rfl
        have hstep2 : integrateStep sq surf P prev n = prev := by
          unfold integrateStep
          rw [hpn]
          simp [hact]
        rw [hstep, hstep2]
        refine ⟨?_, ?_, ihpos, ihrad, ?_⟩
        · intro i hi
          rcases Nat.lt_succ_iff_lt_or_eq.mp hi with h | rfl
          · exact ih1 i h
          · rw [hpn, hcase]
            simp [hFb]
        · intro i hi
          exact ih2 i (by omega)
        · rw [ihiff]
          constructor
          · rintro (h | ⟨i, hi, hrest⟩)
            · exact Or.inl h
            · exact Or.inr ⟨i, by omega, hrest⟩
          · rintro (h | ⟨i, hi, b0, hb0, hb0act, hrest⟩)
            · exact Or.inl h
            · rcases Nat.lt_succ_iff_lt_or_eq.mp hi with h2 | rfl
              · exact Or.inr ⟨i, h2, b0, hb0, hb0act, hrest⟩
              · rw [hcase] at hb0
                cases hb0
                rw [hact] at hb0act
                cases hb0act
      | true =>
        have hlt : n < prev.1.length := (List.getElem?_eq_some.mp hpn).1
        have hFb : integratedBall sq surf P b =
            applyIntegration sq surf b P.fixedDt P.frictionFactor P.ballRadius := by
          unfold integratedBall
          rw [hact]
          rfl
        have hstep2 : integrateStep sq surf P prev n =
            (prev.1.set n (integratedBall sq surf P b),
             checkGoalReached sq prev.2 (integratedBall sq surf P b)) := by
          unfold integrateStep
          rw [hpn]
          simp [hact, hFb]
        rw [hstep, hstep2]
        refine ⟨?_, ?_, ?_, ?_, ?_⟩
        · intro i hi
          rcases Nat.lt_succ_iff_lt_or_eq.mp hi with h | rfl
          · rw [List.getElem?_set_ne (by omega)]
            exact ih1 i h
          · rw [List.getElem?_set_self hlt, hcase]
            rfl
        · intro i hi
          rw [List.getElem?_set_ne (by omega)]
          exact ih2 i (by omega)
        · rw [checkGoalReached_position, ihpos]
        · rw [checkGoalReached_radius, ihrad]
        · rw [checkGoalReached_reached_iff, ihiff, ihpos, ihrad]
          constructor
          · rintro ((h | ⟨i, hi, hrest⟩) | hdist)
            · exact Or.inl h
            · exact Or.inr ⟨i, by omega, hrest⟩
            · exact Or.inr ⟨n, by omega, b, hcase, hact, hdist⟩
          · rintro (h | ⟨i, hi, b0, hb0, hb0act, hdist⟩)
            · exact Or.inl (Or.inl h)
            · rcases Nat.lt_succ_iff_lt_or_eq.mp hi with h2 | rfl
              · exact Or.inl (Or.inr ⟨i, h2, b0, hb0, hb0act, hdist⟩)
              · rw [hcase] at hb0
                cases hb0
                exact Or.inr hdist

/-- C1: for every ball that is active after one execution of updateBalls, the
center equals contact.point + contact.normal * ballRadius exactly (hence
within every positive epsilon): applyIntegration ends every per-ball update
by re-evaluating the surface at the re-projected parameters and recomputing
the center via applyContactPoint from the resulting contact point and
normal. -/
theorem updateBalls_contact_invariant (sq : ℚ → ℚ) (surf : SurfaceData)
    (P : PhysicsParams) (st : PhysState) (b : Ball)
    (hmem : b ∈ (updateBalls sq surf P st).balls) (hact : b.active = true) :
    b.center = vadd b.contact.point (vscale P.ballRadius b.contact.normal) := by
  obtain ⟨i, hi⟩ := List.mem_iff_getElem?.mp hmem
  have hspec := integratePhase_range_spec sq surf P
    (accumulatedBalls sq P st).length (accumulatedBalls sq P st) st.goal
  have hballs : (updateBalls sq surf P st).balls =
      (integratePhase sq surf P (accumulatedBalls sq P st) st.goal
        (List.range (accumulatedBalls sq P st).length)).1 := rfl
  rw [hballs] at hi
  by_cases hn : i < (accumulatedBalls sq P st).length
  · rw [hspec.1 i hn] at hi
    cases hbs : (accumulatedBalls sq P st)[i]? with
    | none =>
      rw [hbs] at hi
      cases hi
    | some b0 =>
      rw [hbs] at hi
      have hb : integratedBall sq surf P b0 = b := by simpa using hi
      cases hb0act : b0.active with
      | false =>
        have hbb : b = b0 := by
          rw [← hb]
          unfold integratedBall
          rw [hb0act]
          rfl
        rw [hbb, hb0act] at hact
        cases hact
      | true =>
        have hbeq : b =
            applyIntegration sq surf b0 P.fixedDt P.frictionFactor P.ballRadius := by
          rw [← hb]
          unfold integratedBall
          rw [hb0act]
          rfl
        rw [hbeq]
        exact applyIntegration_center sq surf b0 P.fixedDt P.frictionFactor P.ballRadius
  · rw [hspec.2.1 i (by omega), List.getElem?_eq_none_iff.mpr (by omega)] at hi
    cases hi

/-- Witness: the contact invariant evaluated on the concrete one-ball tick. -/
theorem updateBalls_contact_invariant_witness :
    ((updateBalls sqW surfW paramsW stateW).balls.getD 0 ballW).center =
      vadd ((updateBalls sqW surfW paramsW stateW).balls.getD 0 ballW).contact.point
        (vscale paramsW.ballRadius
          ((updateBalls sqW surfW paramsW stateW).balls.getD 0 ballW).contact.normal) :=
  updateBalls_contact_invariant sqW surfW paramsW stateW _
    (by norm_num [updateBalls, accumulatedBalls, integratePhase, integrateStep,
      collideStep, applyExternForces, handleWallCollision, handleBallCollisions,
      handleObstacleCollisions, handleBlackHoleAttraction, applyIntegration,
      applyContactPoint, checkGoalReached, logic_closestSplinePointTo,
      logic_evalSplineGlobal, vadd, vsub, vscale, vdot, cCLAMP, cpGetD, sqW,
      stateW, ballW, paramsW, surfW, vzero, vnormalizeTo, List.range_succ,
      List.foldl_cons, List.foldl_nil, List.getD])
    (by norm_num [updateBalls, accumulatedBalls, integratePhase, integrateStep,
      collideStep, applyExternForces, handleWallCollision, handleBallCollisions,
      handleObstacleCollisions, handleBlackHoleAttraction, applyIntegration,
      applyContactPoint, checkGoalReached, logic_closestSplinePointTo,
      logic_evalSplineGlobal, vadd, vsub, vscale, vdot, cCLAMP, cpGetD, sqW,
      stateW, ballW, paramsW, surfW, vzero, vnormalizeTo, List.range_succ,
      List.foldl_cons, List.foldl_nil, List.getD])

theorem integrateFoldl_acceleration (sq : ℚ → ℚ) (surf : SurfaceData)
    (P : PhysicsParams) :
    ∀ (order : List ℕ) (s : List Ball × Goal) (i : ℕ),
      ((order.foldl (integrateStep sq surf P) s).1[i]?).map Ball.acceleration =
        (s.1[i]?).map Ball.acceleration := by
  intro order
  induction order with
  | nil =>
    intro s i
    rfl
  | cons j rest ih =>
    intro s i
    rw [List.foldl_cons, ih]
    unfold integrateStep
    cases h : s.1[j]? with
    | none => rfl
    | some b =>
      dsimp only
      cases hb : b.active with
      | false => simp [hb]
      | true =>
        rw [if_neg (by simp)]
        by_cases hij : i = j
        · subst hij
          rw [List.getElem?_set_self (List.getElem?_eq_some.mp h).1, h]
          simp [applyIntegration_acceleration]
        · rw [List.getElem?_set_ne (by omega)]

theorem opposite_delta (a b pa : Vec3) :
    vsub (vsub a pa) a = vscale (-1) (vsub (vadd b pa) b) := by
  simp only [vsub, vadd, vscale, Vec3.mk.injEq]
  refine ⟨by ring, by ring, by ring⟩

/-- C4: within one tick, accelerations are fully accumulated before any
integration: the gravity pass overwrites each active ball's acceleration with
the tangent-projected gravity over mass, applyBallPenalty applies exactly
opposite acceleration changes to the two bodies of a pair, and the
integration loop never changes any ball's acceleration under any processing
order, so after updateBalls every per-ball acceleration equals the one
produced by the accumulation phases. -/
theorem forces_accumulated_before_integration :
    (∀ (sq : ℚ → ℚ) (surf : SurfaceData) (P : PhysicsParams) (bs : List Ball)
        (g : Goal) (order : List ℕ) (i : ℕ),
      ((integratePhase sq surf P bs g order).1[i]?).map Ball.acceleration =
        (bs[i]?).map Ball.acceleration) ∧
    (∀ (sq : ℚ → ℚ) (surf : SurfaceData) (P : PhysicsParams) (st : PhysState)
        (i : ℕ),
      ((updateBalls sq surf P st).balls[i]?).map Ball.acceleration =
        ((accumulatedBalls sq P st)[i]?).map Ball.acceleration) ∧
    (∀ (b : Ball) (gravity : Vec3) (mass : ℚ),
      (applyExternForces b gravity mass).acceleration =
        vscale (1 / mass)
          (vsub gravity (vscale (vdot gravity b.contact.normal) b.contact.normal))) ∧
    (∀ (sq : ℚ → ℚ) (b1 b2 : Ball) (pen : ℚ) (d : Vec3) (spring mass damping : ℚ),
      vsub (applyBallPenalty sq b1 b2 pen d spring mass damping).1.acceleration
          b1.acceleration =
        vscale (-1)
          (vsub (applyBallPenalty sq b1 b2 pen d spring mass damping).2.acceleration
            b2.acceleration)) := by
  refine ⟨?_, ?_, ?_, ?_⟩
  · intro sq surf P bs g order i
    exact integrateFoldl_acceleration sq surf P order (bs, g) i
  · intro sq surf P st i
    exact integrateFoldl_acceleration sq surf P
      (List.range (accumulatedBalls sq P st).length)
      (accumulatedBalls sq P st, st.goal) i
  · intro b gravity mass
    rfl
  · intro sq b1 b2 pen d spring mass damping
    unfold applyBallPenalty
    dsimp only
    split_ifs
    · exact opposite_delta b1.acceleration b2.acceleration _
    · exact opposite_delta b1.acceleration b2.acceleration _

/-- Counterexample to C7 as stated: a concrete tick in which a ball stays
active with its contact point strictly inside the goal radius, yet the
reached latch stays false, because checkGoalReached measures the distance
from the goal to the ball center (contact.point + radius * normal), not to
the contact point. -/
theorem goal_trigger_contact_point_counterexample :
    ((updateBalls sqW surfW paramsW stateW).balls.getD 0 ballW).active = true ∧
    sqW (vdot
        (vsub stateW.goal.position
          ((updateBalls sqW surfW paramsW stateW).balls.getD 0 ballW).contact.point)
        (vsub stateW.goal.position
          ((updateBalls sqW surfW paramsW stateW).balls.getD 0 ballW).contact.point))
      < stateW.goal.radius ∧
    (updateBalls sqW surfW paramsW stateW).goal.reached = false := by
  norm_num [updateBalls, accumulatedBalls, integratePhase, integrateStep,
    collideStep, applyExternForces, handleWallCollision, handleBallCollisions,
    handleObstacleCollisions, handleBlackHoleAttraction, applyIntegration,
    applyContactPoint, checkGoalReached, logic_closestSplinePointTo,
    logic_evalSplineGlobal, vadd, vsub, vscale, vdot, cCLAMP, cpGetD, sqW,
    stateW, ballW, paramsW, surfW, vzero, vnormalizeTo, List.range_succ,
    List.foldl_cons, List.foldl_nil, List.getD]

/-- C7 (amended): the reached flag after a tick is set iff it was already set
or some ball that is active after the tick has its center (rather than its
contact point) within the goal radius; the flag is thus a one-way latch
across ticks, and initGoal (run by every reset / re-spawn / re-initialization
path) clears it. -/
theorem goal_latch_amended (sq : ℚ → ℚ) (surf : SurfaceData) (P : PhysicsParams)
    (st : PhysState) :
    ((updateBalls sq surf P st).goal.reached = true ↔
      st.goal.reached = true ∨ ∃ i : ℕ, ∃ b : Ball,
        (updateBalls sq surf P st).balls[i]? = some b ∧ b.active = true ∧
        sq (vdot (vsub st.goal.position b.center) (vsub st.goal.position b.center))
          < st.goal.radius) ∧
    (∀ (g : Goal) (eps : ℚ), (initGoal sq surf g eps).reached = false) := by
  constructor
  · obtain ⟨h1, h2, _, _, hiff⟩ := integratePhase_range_spec sq surf P
      (accumulatedBalls sq P st).length (accumulatedBalls sq P st) st.goal
    have hgoal : (updateBalls sq surf P st).goal =
        (integratePhase sq surf P (accumulatedBalls sq P st) st.goal
          (List.range (accumulatedBalls sq P st).length)).2 := rfl
    have hballs : (updateBalls sq surf P st).balls =
        (integratePhase sq surf P (accumulatedBalls sq P st) st.goal
          (List.range (accumulatedBalls sq P st).length)).1 := rfl
    rw [hgoal, hiff]
    constructor
    · rintro (h | ⟨i, hilt, b0, hb0, hb0act, hdist⟩)
      · exact Or.inl h
      · refine Or.inr ⟨i, integratedBall sq surf P b0, ?_, ?_, hdist⟩
        · rw [hballs, h1 i hilt, hb0]
          rfl
        · rw [integratedBall_active, hb0act]
    · rintro (h | ⟨i, b, hb, hbact, hdist⟩)
      · exact Or.inl h
      · by_cases hilt : i < (accumulatedBalls sq P st).length
        · rw [hballs, h1 i hilt] at hb
          cases hbs : (accumulatedBalls sq P st)[i]? with
          | none =>
            rw [hbs] at hb
            cases hb
          | some b0 =>
            rw [hbs] at hb
            have hfb : integratedBall sq surf P b0 = b := by simpa using hb
            refine Or.inr ⟨i, hilt, b0, hbs, ?_, ?_⟩
            · rw [← integratedBall_active sq surf P b0, hfb]
              exact hbact
            · rw [hfb]
              exact hdist
        · rw [hballs, h2 i (by omega), List.getElem?_eq_none_iff.mpr (by omega)] at hb
          cases hb
  · intro g eps
    rfl

theorem applyWallPenalty_acceleration (b : Ball) (w : Wall)
    (ballMass penetration springConst wallDamping : ℚ) :
    (applyWallPenalty b w ballMass penetration springConst wallDamping).acceleration =
      vadd (vscale (1 / ballMass) (vscale (springConst * penetration) w.normal))
        b.acceleration := by
  unfold applyWallPenalty
  dsimp only
  split_ifs <;> rfl

/-- Counterexample to C5 as stated: a ball whose center lies exactly on the
wall plane has penetration equal to the ball radius, and receives the nonzero
penalty acceleration springConst * radius / mass instead of the zero force
the claim asserts for penetration == radius. -/
theorem wall_penalty_at_penetration_radius_counterexample :
    paramsW5.ballRadius - (vdot wallW.normal ballW.center + wallW.distance) =
      paramsW5.ballRadius ∧
    (handleWallCollision paramsW5 [wallW] ballW).acceleration ≠ ballW.acceleration := by
  constructor
  · norm_num [paramsW5, paramsW, wallW, ballW, vdot, vzero]
  · norm_num [handleWallCollision, applyWallPenalty, paramsW5, paramsW, wallW,
      ballW, vdot, vadd, vscale, vreflect, vzero, Vec3.mk.injEq]

/-- C5 (amended): with wall collisions enabled, a ball touching a wall plane
exactly (signed distance equal to the radius, i.e. penetration zero) is left
completely unchanged, and a ball with penetration exactly 1 receives the
penalty acceleration springConst / mass directed along the wall normal. -/
theorem wall_penalty_boundary_amended (P : PhysicsParams) (w : Wall) (b : Ball)
    (he : P.wallEnabled = true) :
    (vdot w.normal b.center + w.distance = P.ballRadius →
      handleWallCollision P [w] b = b) ∧
    (P.ballRadius - (vdot w.normal b.center + w.distance) = 1 →
      (handleWallCollision P [w] b).acceleration =
        vadd (vscale (P.wallSpring / P.mass) w.normal) b.acceleration) := by
  unfold handleWallCollision
  rw [he]
  simp only [Bool.not_true, Bool.false_eq_true, if_false, List.foldl_cons,
    List.foldl_nil]
  constructor
  · intro h0
    rw [if_neg (by rw [h0]; simp)]
  · intro h1
    rw [if_pos (by rw [h1]; norm_num), h1, applyWallPenalty_acceleration]
    simp only [vadd, vscale, Vec3.mk.injEq]
    refine ⟨by ring, by ring, by ring⟩

/-- Witness: the amended wall boundary statement with every hypothesis
discharged at concrete inputs: a ball exactly touching the plane is left
unchanged, and a ball with penetration 1 gets acceleration springConst/mass
along the normal. -/
theorem wall_penalty_boundary_amended_witness :
    handleWallCollision paramsW5 [wallW] ballTouch = ballTouch ∧
    (handleWallCollision paramsW5 [wallW] ballPen1).acceleration =
      vadd (vscale (paramsW5.wallSpring / paramsW5.mass) wallW.normal)
        ballPen1.acceleration :=
  ⟨(wall_penalty_boundary_amended paramsW5 wallW ballTouch rfl).1
      (by norm_num [vdot, wallW, ballTouch, ballW, paramsW5, paramsW]),
   (wall_penalty_boundary_amended paramsW5 wallW ballPen1 rfl).2
      (by norm_num [vdot, wallW, ballPen1, ballW, paramsW5, paramsW])⟩

/-- Counterexample to C8 as stated: two active balls with exactly coincident
centers have positive penetration, yet the pair step applies no force at all
to either ball (the pair is skipped); no penalty along any fallback direction
is applied in the ball-ball near-zero case. -/
theorem ballball_coincident_skipped_counterexample :
    0 < 2 * paramsW.ballRadius -
        sqZ (vdot (vsub ballW.center ballW.center) (vsub ballW.center ballW.center)) ∧
    ballPairStep sqZ paramsW [ballW, ballW] 0 1 = [ballW, ballW] := by
  constructor
  · norm_num [paramsW, sqZ]
  · norm_num [ballPairStep, sqZ, paramsW, ballW, vsub, vdot]

/-- C8 (amended): every normalization of the collision resolver is guarded
against near-zero lengths: the ball-ball pair step leaves the list unchanged
whenever the computed center distance is at most 0.0001 (coincident centers
are skipped, with no force and no division), the obstacle normal is a unit
axis fallback direction whenever the distance is below 1e-6, and the
difference vector is divided by the distance only when it is at least
1e-6. -/
theorem normalization_guards_amended :
    (∀ (sq : ℚ → ℚ) (P : PhysicsParams) (bs : List Ball) (i1 i2 : ℕ) (b1 b2 : Ball),
      bs[i1]? = some b1 → bs[i2]? = some b2 →
      sq (vdot (vsub b2.center b1.center) (vsub b2.center b1.center)) ≤ 1/10000 →
      ballPairStep sq P bs i1 i2 = bs) ∧
    (∀ (o : Obstacle) (pos : Vec3) (dist : ℚ) (diff : Vec3), dist < 1/1000000 →
      utils_getAABBNormal o pos dist diff ∈
        ([⟨1, 0, 0⟩, ⟨-1, 0, 0⟩, ⟨0, 1, 0⟩, ⟨0, -1, 0⟩, ⟨0, 0, 1⟩, ⟨0, 0, -1⟩] :
          List Vec3)) ∧
    (∀ (o : Obstacle) (pos : Vec3) (dist : ℚ) (diff : Vec3), 1/1000000 ≤ dist →
      utils_getAABBNormal o pos dist diff = vscale (1 / dist) diff) := by
  refine ⟨?_, ?_, ?_⟩
  · intro sq P bs i1 i2 b1 b2 h1 h2 hd
    unfold ballPairStep
    rw [h1, h2]
    dsimp only
    cases hb2 : b2.active with
    | false => simp
    | true =>
      rw [if_neg (by simp)]
      rw [if_neg ?_]
      rintro ⟨-, hgt⟩
      exact absurd (lt_of_le_of_lt hd hgt) (lt_irrefl _)
  · intro o pos dist diff hd
    unfold utils_getAABBNormal
    rw [if_pos hd]
    dsimp only
    split_ifs <;> simp
  · intro o pos dist diff hd
    unfold utils_getAABBNormal
    rw [if_neg (not_lt.mpr hd)]

/-- C9: while a rebuild is pending (dimensionChanged or resolutionChanged),
logic_evalSplineGlobal returns immediately without writing either output
vector: the result is exactly the caller's two buffers, and the same holds
for every patch array, so the patches are read only when no rebuild is
pending. -/
theorem evalSplineGlobal_pending_rebuild_no_write (sq : ℚ → ℚ)
    (surf : SurfaceData) (gT gS : ℚ) (posBuf normalBuf : Vec3)
    (patches' : List Mat4)
    (h : surf.dimensionChanged = true ∨ surf.resolutionChanged = true) :
    logic_evalSplineGlobal sq surf gT gS posBuf normalBuf = (posBuf, normalBuf) ∧
    logic_evalSplineGlobal sq { surf with patches := patches' } gT gS posBuf
        normalBuf = (posBuf, normalBuf) := by
  unfold logic_evalSplineGlobal
  rcases h with h | h <;> simp [h]

/-- Witness: the pending-rebuild frame property at the concrete surface state
with dimensionChanged set and distinct recognizable buffers. -/
theorem evalSplineGlobal_pending_rebuild_no_write_witness :
    logic_evalSplineGlobal sqZ surfW (1/2) (1/3) ⟨1, 2, 3⟩ ⟨4, 5, 6⟩ =
      (⟨1, 2, 3⟩, ⟨4, 5, 6⟩) ∧
    logic_evalSplineGlobal sqZ { surfW with patches := [m4zero] } (1/2) (1/3)
        ⟨1, 2, 3⟩ ⟨4, 5, 6⟩ = (⟨1, 2, 3⟩, ⟨4, 5, 6⟩) :=
  evalSplineGlobal_pending_rebuild_no_write sqZ surfW (1/2) (1/3) ⟨1, 2, 3⟩
    ⟨4, 5, 6⟩ [m4zero] (Or.inl rfl)

/-- C10: initGoal takes the last control point as the goal seed when the
cached surface extremes coincide within epsilon and the cached minimum point
otherwise; the final goal position is the spline evaluation at the projection
of that seed, and (with no rebuild pending) it is freshly computed,
independent of the previous goal position; the reached flag is cleared in
both cases. -/
theorem initGoal_anchor_selection (sq : ℚ → ℚ) (surf : SurfaceData) (g : Goal)
    (eps : ℚ) (hdim : surf.dimensionChanged = false)
    (hres : surf.resolutionChanged = false) :
    (vecEqvEps eps surf.minPoint surf.maxPoint = true →
      initGoalSeed surf eps =
        cpGetD surf.controlPoints (surf.controlPoints.length - 1)) ∧
    (vecEqvEps eps surf.minPoint surf.maxPoint = false →
      initGoalSeed surf eps = surf.minPoint) ∧
    (initGoal sq surf g eps).position =
      (logic_evalSplineGlobal sq surf
        (logic_closestSplinePointTo surf (initGoalSeed surf eps)).2
        (logic_closestSplinePointTo surf (initGoalSeed surf eps)).1
        g.position vzero).1 ∧
    (∀ g' : Goal, (initGoal sq surf g' eps).position =
      (initGoal sq surf g eps).position) ∧
    (initGoal sq surf g eps).reached = false := by
  refine ⟨?_, ?_, rfl, ?_, rfl⟩
  · intro h
    unfold initGoalSeed
    rw [h]
    rfl
  · intro h
    unfold initGoalSeed
    rw [h]
    rfl
  · intro g'
    unfold initGoal
    dsimp only
    unfold logic_evalSplineGlobal
    rw [hdim, hres]
    rfl

/-- Witness: the initGoal contract at the concrete no-rebuild surface state. -/
theorem initGoal_anchor_selection_witness :
    (vecEqvEps 0 surfN.minPoint surfN.maxPoint = true →
      initGoalSeed surfN 0 =
        cpGetD surfN.controlPoints (surfN.controlPoints.length - 1)) ∧
    (vecEqvEps 0 surfN.minPoint surfN.maxPoint = false →
      initGoalSeed surfN 0 = surfN.minPoint) ∧
    (initGoal sqZ surfN { position := ⟨7, 8, 9⟩, radius := 3/10, reached := true }
        0).position =
      (logic_evalSplineGlobal sqZ surfN
        (logic_closestSplinePointTo surfN (initGoalSeed surfN 0)).2
        (logic_closestSplinePointTo surfN (initGoalSeed surfN 0)).1
        (⟨7, 8, 9⟩ : Vec3) vzero).1 ∧
    (∀ g' : Goal, (initGoal sqZ surfN g' 0).position =
      (initGoal sqZ surfN { position := ⟨7, 8, 9⟩, radius := 3/10, reached := true }
        0).position) ∧
    (initGoal sqZ surfN { position := ⟨7, 8, 9⟩, radius := 3/10, reached := true }
        0).reached = false :=
  initGoal_anchor_selection sqZ surfN
    { position := ⟨7, 8, 9⟩, radius := 3/10, reached := true } 0 rfl rfl

theorem isqrt_foldl_above (N : ℕ) :
    ∀ d : ℕ, (List.range (N + 1 + d)).foldl
      (fun acc k => if k * k ≤ N * N then k else acc) 0 = N := by
  intro d
  induction d with
  | zero =>
    rw [Nat.add_zero, List.range_succ, List.foldl_append, List.foldl_cons,
      List.foldl_nil]
    rw [if_pos (le_refl (N * N))]
  | succ d ih =>
    rw [show N + 1 + (d + 1) = (N + 1 + d) + 1 from rfl, List.range_succ,
      List.foldl_append, List.foldl_cons, List.foldl_nil, ih]
    have hlt : N * N < (N + 1 + d) * (N + 1 + d) := by nlinarith
    rw [if_neg (by omega)]

theorem isqrt_mul_self (N : ℕ) : isqrt (N * N) = N := by
  have hle : N ≤ N * N := by nlinarith
  have h : N * N + 1 = N + 1 + (N * N - N) := by omega
  unfold isqrt
  rw [h]
  exact isqrt_foldl_above N (N * N - N)

theorem cpIndexPairs_getElem? (n i j : ℕ) (hi : i < n) (hj : j < n) :
    (cpIndexPairs n)[i * n + j]? = some (i, j) := by
  unfold cpIndexPairs
  rw [show (List.range n).flatMap (fun i => (List.range n).map (fun j => (i, j))) =
      ((List.range n).map (fun i =>
        (List.range n).map (fun j => (i, j)))).flatten from rfl]
  rw [flatten_getElem?_uniform _ n (by
    intro l hl
    rw [List.mem_map] at hl
    obtain ⟨a, _, rfl⟩ := hl
    simp) i j hj]
  simp [List.getElem?_range hi, List.getElem?_range hj]

theorem cpIndexPairs_length (n : ℕ) : (cpIndexPairs n).length = n * n := by
  unfold cpIndexPairs
  rw [List.length_flatMap]
  simp [Function.comp_def]

theorem cpIndexPairs_mem_lt (n : ℕ) : ∀ p ∈ cpIndexPairs n, p.1 < n ∧ p.2 < n := by
  intro p hp
  unfold cpIndexPairs at hp
  rw [List.mem_flatMap] at hp
  obtain ⟨i, hi, hp⟩ := hp
  rw [List.mem_map] at hp
  obtain ⟨j, hj, rfl⟩ := hp
  exact ⟨List.mem_range.mp hi, List.mem_range.mp hj⟩

theorem buildPoints_length (rand : ℕ → ℚ) (cp : List Vec3) (oldDim newDim : ℕ)
    (newStep : ℚ) :
    ∀ (ps : List (ℕ × ℕ)) (used : ℕ),
      (buildPoints rand cp oldDim newDim newStep ps used).1.length = ps.length := by
  intro ps
  induction ps with
  | nil =>
    intro used
    rfl
  | cons p rest ih =>
    intro used
    obtain ⟨pi, pj⟩ := p
    unfold buildPoints
    dsimp only
    rw [List.length_cons, ih]
    rfl

theorem buildPoints_getElem? (rand : ℕ → ℚ) (cp : List Vec3) (oldDim newDim : ℕ)
    (newStep : ℚ) :
    ∀ (ps : List (ℕ × ℕ)) (used k i j : ℕ), ps[k]? = some (i, j) →
      ∃ h : ℚ, (buildPoints rand cp oldDim newDim newStep ps used).1[k]? =
        some ⟨(j : ℚ) * newStep, h, (i : ℚ) * newStep⟩ := by
  intro ps
  induction ps with
  | nil =>
    intro used k i j hk
    simp at hk
  | cons p rest ih =>
    intro used k i j hk
    obtain ⟨pi, pj⟩ := p
    have hexp : (buildPoints rand cp oldDim newDim newStep ((pi, pj) :: rest) used).1 =
        (⟨(pj : ℚ) * newStep, (newHeight rand cp oldDim newDim pi pj used).1,
          (pi : ℚ) * newStep⟩ : Vec3) ::
        (buildPoints rand cp oldDim newDim newStep rest
          (newHeight rand cp oldDim newDim pi pj used).2).1 := rfl
    cases k with
    | zero =>
      rw [List.getElem?_cons_zero] at hk
      simp only [Option.some.injEq, Prod.mk.injEq] at hk
      obtain ⟨rfl, rfl⟩ := hk
      exact ⟨(newHeight rand cp oldDim newDim pi pj used).1, by
        rw [hexp, List.getElem?_cons_zero]⟩
    | succ k =>
      rw [List.getElem?_cons_succ] at hk
      obtain ⟨h, hh⟩ :=
        ih (newHeight rand cp oldDim newDim pi pj used).2 k i j hk
      exact ⟨h, by rw [hexp, List.getElem?_cons_succ, hh]⟩

theorem buildPoints_reuse (rand : ℕ → ℚ) (cp : List Vec3) (oldDim newDim : ℕ)
    (newStep : ℚ) (hpos : 0 < oldDim) :
    ∀ (ps : List (ℕ × ℕ)), (∀ p ∈ ps, p.1 < oldDim ∧ p.2 < oldDim) →
    ∀ used : ℕ, buildPoints rand cp oldDim newDim newStep ps used =
      (ps.map (fun p =>
        (⟨(p.2 : ℚ) * newStep, (cpGetD cp (p.1 * oldDim + p.2)).y,
          (p.1 : ℚ) * newStep⟩ : Vec3)), used) := by
  intro ps
  induction ps with
  | nil =>
    intro _ used
    rfl
  | cons p rest ih =>
    intro hmem used
    obtain ⟨pi, pj⟩ := p
    have hp := hmem (pi, pj) (by simp)
    have hnh : newHeight rand cp oldDim newDim pi pj used =
        ((cpGetD cp (pi * oldDim + pj)).y, used) := by
      unfold newHeight
      rw [if_pos ⟨hp.1, hp.2, hpos⟩]
    have hexp : buildPoints rand cp oldDim newDim newStep ((pi, pj) :: rest) used =
        ((⟨(pj : ℚ) * newStep, (newHeight rand cp oldDim newDim pi pj used).1,
          (pi : ℚ) * newStep⟩ : Vec3) ::
         (buildPoints rand cp oldDim newDim newStep rest
           (newHeight rand cp oldDim newDim pi pj used).2).1,
         (buildPoints rand cp oldDim newDim newStep rest
           (newHeight rand cp oldDim newDim pi pj used).2).2) := rfl
    rw [hexp, hnh]
    dsimp only
    rw [ih (fun q hq => hmem q (by simp [hq])) used]
    rfl

/-- C6: rebuilding the control grid twice in a row with the same dimension
and spacing is idempotent: on the second rebuild every point at the same
(row, col) keeps its height, no rand call is consumed (no jitter), the x/z
lattice positions are recomputed identically from step 1/(N-1) + spacing, so
the grid is reproduced exactly and the rebuilt patch coefficients are
identical. -/
theorem rebuild_same_dimension_idempotent (rand rand2 : ℕ → ℚ) (cp : List Vec3)
    (N : ℕ) (off : ℚ) (hN : 2 ≤ N) :
    (updateControlPoints rand2 (updateControlPoints rand cp N off).1 N off).1 =
      (updateControlPoints rand cp N off).1 ∧
    (updateControlPoints rand2 (updateControlPoints rand cp N off).1 N off).2 = 0 ∧
    updatePatchesFromControlPoints
        (updateControlPoints rand2 (updateControlPoints rand cp N off).1 N off).1 N =
      updatePatchesFromControlPoints (updateControlPoints rand cp N off).1 N := by
  have hN0 : 0 < N := by omega
  set g1 : List Vec3 := (updateControlPoints rand cp N off).1 with hg1
  set step : ℚ := 1 / ((N : ℚ) - 1) + off with hstep
  have hg1b : g1 = (buildPoints rand cp
      (if isqrt cp.length * isqrt cp.length ≠ cp.length then 0 else isqrt cp.length)
      N step (cpIndexPairs N) 0).1 := rfl
  have hlen : g1.length = N * N := by
    rw [hg1b, buildPoints_length, cpIndexPairs_length]
  have h2 : updateControlPoints rand2 g1 N off =
      ((cpIndexPairs N).map (fun p =>
        (⟨(p.2 : ℚ) * step, (cpGetD g1 (p.1 * N + p.2)).y,
          (p.1 : ℚ) * step⟩ : Vec3)), 0) := by
    unfold updateControlPoints
    dsimp only
    rw [hlen, isqrt_mul_self]
    rw [if_neg (by omega)]
    exact buildPoints_reuse rand2 g1 N N step hN0 (cpIndexPairs N)
      (cpIndexPairs_mem_lt N) 0
  have hfirst :
      (updateControlPoints rand2 g1 N off).1 = g1 := by
    rw [h2]
    apply List.ext_getElem?
    intro k
    by_cases hk : k < N * N
    · have hj : k % N < N := Nat.mod_lt k hN0
      have hi : k / N < N := Nat.div_lt_of_lt_mul hk
      have hkeq : (k / N) * N + k % N = k := by
        rw [Nat.mul_comm]
        exact Nat.div_add_mod k N
      have hpair : (cpIndexPairs N)[k]? = some (k / N, k % N) := by
        have hp0 := cpIndexPairs_getElem? N (k / N) (k % N) hi hj
        rwa [hkeq] at hp0
      obtain ⟨h, hh⟩ := buildPoints_getElem? rand cp
        (if isqrt cp.length * isqrt cp.length ≠ cp.length then 0
         else isqrt cp.length) N step (cpIndexPairs N) 0 k (k / N) (k % N) hpair
      have hg1k : g1[k]? = some ⟨((k % N : ℕ) : ℚ) * step, h, ((k / N : ℕ) : ℚ) * step⟩ := by
        rw [hg1b]
        exact hh
      have hgd : (cpGetD g1 ((k / N) * N + k % N)).y = h := by
        rw [hkeq]
        unfold cpGetD
        rw [List.getD_eq_getElem?_getD, hg1k]
        rfl
      rw [List.getElem?_map, hpair, hg1k]
      simp only [Option.map_some']
      rw [hgd]
    · have hnone1 : ((cpIndexPairs N).map (fun p =>
          (⟨(p.2 : ℚ) * step, (cpGetD g1 (p.1 * N + p.2)).y,
            (p.1 : ℚ) * step⟩ : Vec3)))[k]? = none := by
        rw [List.getElem?_eq_none_iff]
        rw [List.length_map, cpIndexPairs_length]
        omega
      have hnone2 : g1[k]? = none := by
        rw [List.getElem?_eq_none_iff, hlen]
        omega
      rw [hnone1, hnone2]
  refine ⟨hfirst, by rw [h2], by rw [hfirst]⟩

/-- Witness: the idempotence statement at dimension 4, zero spacing, an empty
previous grid, and two visibly different random streams. -/
theorem rebuild_same_dimension_idempotent_witness :
    (updateControlPoints (fun _ => 9/11)
        (updateControlPoints (fun k => (k + 1 : ℚ) / 7) [] 4 0).1 4 0).1 =
      (updateControlPoints (fun k => (k + 1 : ℚ) / 7) [] 4 0).1 ∧
    (updateControlPoints (fun _ => 9/11)
        (updateControlPoints (fun k => (k + 1 : ℚ) / 7) [] 4 0).1 4 0).2 = 0 ∧
    updatePatchesFromControlPoints
        (updateControlPoints (fun _ => 9/11)
          (updateControlPoints (fun k => (k + 1 : ℚ) / 7) [] 4 0).1 4 0).1 4 =
      updatePatchesFromControlPoints
        (updateControlPoints (fun k => (k + 1 : ℚ) / 7) [] 4 0).1 4 :=
  rebuild_same_dimension_idempotent (fun k => (k + 1 : ℚ) / 7) (fun _ => 9/11)
    [] 4 0 (by omega)

end CG
